import Mathlib

/-!
Verification of the yatube blogging application (posts/models.py,
posts/views.py) against its natural-language specification.

The data model and the view functions are shallowly embedded: database
tables are lists of records, querysets are explicit list computations,
the short-TTL cache is an explicit cache state threaded through the
home-feed view, and every view is a pure function from a request state
to a response value plus the updated database.
-/

namespace Yatube

/-- A user record (`django.contrib.auth` user as referenced by the app):
primary key and username. -/
structure UserRec where
  id : Nat
  username : String
deriving Repr, DecidableEq

/-- `Group` model: title, unique slug, description (models.py). -/
structure GroupRec where
  id : Nat
  title : String
  slug : String
  description : String
deriving Repr, DecidableEq

/-- `Post` model (models.py): bounded text, auto-set publication
timestamp, required author reference, optional group reference
(SET_NULL), optional image. Timestamps are modelled as naturals. -/
structure PostRec where
  id : Nat
  text : String
  pub_date : Nat
  author : Nat
  group : Option Nat
  image : Option String
deriving Repr, DecidableEq

/-- `Comment` model (models.py): bounded text, auto-set creation
timestamp, required references to a post and an author (both CASCADE). -/
structure CommentRec where
  id : Nat
  text : String
  created : Nat
  post : Nat
  author : Nat
deriving Repr, DecidableEq

/-- `Follow` model (models.py): an edge from a following user to a
followed author. The model declares no uniqueness constraint on the
(user, author) pair, so the storage accepts duplicate edges. -/
structure FollowRec where
  id : Nat
  user : Nat
  author : Nat
deriving Repr, DecidableEq

/-- The relational store: one list per table. -/
structure DB where
  users : List UserRec
  groups : List GroupRec
  posts : List PostRec
  comments : List CommentRec
  follows : List FollowRec
deriving Repr, DecidableEq

/-- A fresh primary key for a new row: one more than the largest id in
the table (auto-increment never reuses a live id). -/
def freshId (ids : List Nat) : Nat := ids.foldr max 0 + 1

def freshPostId (db : DB) : Nat := freshId (db.posts.map (·.id))
def freshCommentId (db : DB) : Nat := freshId (db.comments.map (·.id))
def freshFollowId (db : DB) : Nat := freshId (db.follows.map (·.id))

/-- `Post.Meta.ordering = ['-pub_date', '-id']` (models.py): p comes no
later than q in a feed iff p's (pub_date, id) key is lexicographically
at least q's. -/
def postLE (p q : PostRec) : Prop :=
  q.pub_date < p.pub_date ∨ (q.pub_date = p.pub_date ∧ q.id ≤ p.id)

instance : DecidableRel postLE := fun p q => by
  unfold postLE; infer_instance

instance : IsTotal PostRec postLE where
  total p q := by
    unfold postLE
    omega

instance : IsTrans PostRec postLE where
  trans p q r hpq hqr := by
    unfold postLE at *
    omega

/-- A queryset of posts evaluates in the model's default order:
newest-first by (pub_date, id) descending. -/
def orderPosts (l : List PostRec) : List PostRec := List.insertionSort postLE l

/-- The base post list of the home feed:
`Post.objects.select_related('author', 'group').all()`. -/
def index_post_list (db : DB) : List PostRec := orderPosts db.posts

/-- The base post list of a group feed:
`group.post.select_related('author', 'group').all()`. -/
def group_post_list (db : DB) (gid : Nat) : List PostRec :=
  orderPosts (db.posts.filter (fun p => p.group == some gid))

/-- The base post list of a profile feed:
`author.post.select_related('author', 'group').all()`. -/
def profile_post_list (db : DB) (aid : Nat) : List PostRec :=
  orderPosts (db.posts.filter (fun p => p.author == aid))

/-- The base post list of the follow feed:
`Post.objects.select_related('author', 'group').filter(author__following__user=request.user).all()`. -/
def follow_post_list (db : DB) (uid : Nat) : List PostRec :=
  orderPosts (db.posts.filter
    (fun p => db.follows.any (fun f => f.user == uid && f.author == p.author)))

/-! ### Paginator (django.core.paginator, as called by the views)

Every feed view runs `Paginator(post_list, 10)` and
`paginator.get_page(page_number)`. Django's `Paginator.get_page`
validates the number: a value that is not an integer maps to page 1; a
number below 1 or above `num_pages` raises `EmptyPage`, which
`get_page` maps to the last page `num_pages`. -/

/-- The page request parameter after Django's `int()` parse attempt:
either a parsed integer or not an integer at all. -/
inductive PageParam where
  | num (n : Int)
  | notAnInt
deriving Repr, DecidableEq

/-- `Paginator.num_pages` with `allow_empty_first_page`: `ceil(count /
per_page)`, but at least one page. -/
def numPages (count per_page : Nat) : Nat :=
  max 1 ((count + per_page - 1) / per_page)

/-- A rendered page: its object list, its 1-based number, and the
paginator's page count (has-next and has-previous derive from these). -/
structure PageObj where
  object_list : List PostRec
  number : Nat
  num_pages : Nat
deriving Repr, DecidableEq

def PageObj.has_next (pg : PageObj) : Bool := pg.number < pg.num_pages
def PageObj.has_previous (pg : PageObj) : Bool := 1 < pg.number

/-- `Paginator(l, per_page).get_page(p)`. -/
def get_page (l : List PostRec) (per_page : Nat) (p : PageParam) : PageObj :=
  let np := numPages l.length per_page
  let number : Nat :=
    match p with
    | .notAnInt => 1
    | .num n => if n < 1 then np else if np < n then np else n.toNat
  ⟨(l.drop ((number - 1) * per_page)).take per_page, number, np⟩

/-! ### Cache layer (views.py, get_cached_index_page) -/

/-- The cache as seen through the key 'index_page': an optional stored
value together with its absolute expiry time. -/
structure CacheState where
  entry : Option (List PostRec × Nat)
deriving Repr, DecidableEq

/-- `cache.get('index_page')` at the current time: the stored value if
present and unexpired, else None. -/
def cacheGet (c : CacheState) (now : Nat) : Option (List PostRec) :=
  match c.entry with
  | none => none
  | some (v, expiry) => if now < expiry then some v else none

/-- `cache.set('index_page', data, ttl)` at the current time. -/
def cacheSet (data : List PostRec) (now ttl : Nat) : CacheState :=
  ⟨some (data, now + ttl)⟩

/-- `cache.clear()` as run by test teardown. -/
def cacheClear : CacheState := ⟨none⟩

/-- views.py `get_cached_index_page`: on a cache miss recompute the
full post list and store it for 20 seconds; on a hit return the cached
value unchanged. -/
def get_cached_index_page (db : DB) (c : CacheState) (now : Nat) :
    List PostRec × CacheState :=
  match cacheGet c now with
  | some data => (data, c)
  | none =>
      let data := index_post_list db
      (data, cacheSet data now 20)

/-! ### Responses and request-side values -/

/-- Redirect targets issued by the views. -/
inductive Redirect where
  | login (next : String)
  | indexPage
  | profilePage (username : String)
  | postPage (username : String) (post_id : Nat)
deriving Repr, DecidableEq

/-- Field-level form errors (forms modelled below). -/
inductive FormError where
  | textEmpty
  | textTooLong
  | notAnImage
deriving Repr, DecidableEq

/-- The outcome of a view call. -/
inductive ViewResult where
  | page (pg : PageObj)
  | renderForm (errors : List FormError)
  | redirect (r : Redirect)
  | notFound
deriving Repr, DecidableEq

/-- URL paths of the login-protected endpoints (urls as listed in the
spec's external-interface section). -/
def new_post_path : String := "/new/"

def post_edit_path (username : String) (post_id : Nat) : String :=
  "/" ++ username ++ "/" ++ toString post_id ++ "/edit/"

def add_comment_path (username : String) (post_id : Nat) : String :=
  "/" ++ username ++ "/" ++ toString post_id ++ "/comment"

def follow_index_path : String := "/follow/"

def profile_follow_path (username : String) : String :=
  "/" ++ username ++ "/follow/"

def profile_unfollow_path (username : String) : String :=
  "/" ++ username ++ "/unfollow/"

/-- An uploaded file: its name and whether it passes image-format
validation. -/
structure UploadedFile where
  name : String
  is_image : Bool
deriving Repr, DecidableEq

/-- A bound PostForm submission: text, optional group choice, optional
uploaded image. -/
structure PostFormData where
  text : String
  group : Option Nat
  image : Option UploadedFile
deriving Repr, DecidableEq

/-- Modelled from the spec: posts/forms.py is not under src/. Section
4.4 Form Validators: "Post/Comment text: non-empty, at most 200
characters." The text field's errors. -/
def textErrors (t : String) : List FormError :=
  (if t.length = 0 then [FormError.textEmpty] else []) ++
  (if 200 < t.length then [FormError.textTooLong] else [])

/-- Modelled from the spec: posts/forms.py is not under src/. Section
4.4 Form Validators: "Image: must pass image-format validation
(rejecting non-image files) before a post is accepted." -/
def imageErrors : Option UploadedFile → List FormError
  | none => []
  | some f => if f.is_image then [] else [FormError.notAnImage]

/-- Modelled from the spec: PostForm validation — text errors plus
image errors; the form is valid iff this list is empty. -/
def postFormErrors (d : PostFormData) : List FormError :=
  textErrors d.text ++ imageErrors d.image

/-- Modelled from the spec: CommentForm validation — the single text
field's errors. -/
def commentFormErrors (t : String) : List FormError := textErrors t

/-! ### Views (views.py) -/

/-- views.py `user_is_follower(user, author)`:
`user.is_authenticated and Follow.objects.filter(user=user, author=author).exists()`.
An anonymous request user is `none`. -/
def user_is_follower (db : DB) (user : Option UserRec) (author : UserRec) : Bool :=
  match user with
  | none => false
  | some u => db.follows.any (fun f => f.user == u.id && f.author == author.id)

/-- views.py `index`: fetch the (possibly cached) full post list,
paginate by 10, render. Returns the rendered page and the cache state
after the request. -/
def index (db : DB) (c : CacheState) (now : Nat) (p : PageParam) :
    PageObj × CacheState :=
  let r := get_cached_index_page db c now
  (get_page r.1 10 p, r.2)

/-- views.py `group_posts`: 404 if no group has the slug, else the
group's posts paginated by 10, uncached. -/
def group_posts (db : DB) (slug : String) (p : PageParam) :
    Option (GroupRec × PageObj) :=
  match db.groups.find? (fun g => g.slug == slug) with
  | none => none
  | some g => some (g, get_page (group_post_list db g.id) 10 p)

/-- views.py `profile`: 404 if no user has the username, else the
author's posts paginated by 10, uncached, plus the follow status. -/
def profile (db : DB) (user : Option UserRec) (username : String) (p : PageParam) :
    Option (PageObj × Bool) :=
  match db.users.find? (fun a => a.username == username) with
  | none => none
  | some author =>
      some (get_page (profile_post_list db author.id) 10 p,
        user_is_follower db user author)

/-- views.py `follow_index` (login_required): posts from followed
authors, paginated by 10, uncached. -/
def follow_index (db : DB) (user : Option UserRec) (p : PageParam) : ViewResult :=
  match user with
  | none => .redirect (.login follow_index_path)
  | some u => .page (get_page (follow_post_list db u.id) 10 p)

/-- The author's username of a post, for `author__username` lookups. -/
def authorUsername (db : DB) (p : PostRec) : Option String :=
  (db.users.find? (fun u => u.id == p.author)).map (·.username)

/-- `get_object_or_404(Post, id=post_id, author__username=username)`. -/
def findPost (db : DB) (username : String) (post_id : Nat) : Option PostRec :=
  db.posts.find? (fun p => p.id == post_id && authorUsername db p == some username)

/-- `Post.objects.create(...)` / `form.save()` on a new post: insert a
row with a fresh id and the auto-set timestamp; no validation happens
at the model layer (TextField max_length is a form-level check only,
not enforced on save). -/
def postObjectsCreate (db : DB) (text : String) (author : Nat)
    (group : Option Nat) (image : Option String) (now : Nat) : DB :=
  { db with posts :=
      db.posts ++ [⟨freshPostId db, text, now, author, group, image⟩] }

/-- `Comment.objects.create(...)` / comment `form.save()`: insert a row
with a fresh id; no validation at the model layer. -/
def commentObjectsCreate (db : DB) (text : String) (post author now : Nat) : DB :=
  { db with comments :=
      db.comments ++ [⟨freshCommentId db, text, now, post, author⟩] }

/-- `Follow.objects.create(user=..., author=...)`: a plain row insert;
the storage declares no uniqueness constraint on (user, author). -/
def followObjectsCreate (db : DB) (uid aid : Nat) : DB :=
  { db with follows := db.follows ++ [⟨freshFollowId db, uid, aid⟩] }

/-- views.py `new_post` (login_required): an anonymous user is
redirected to login with next=/new/; a valid form creates the post
(author forced to the request user) and redirects home; an invalid form
re-renders the form with its errors and persists nothing. -/
def new_post (db : DB) (user : Option UserRec) (d : PostFormData) (now : Nat) :
    DB × ViewResult :=
  match user with
  | none => (db, .redirect (.login new_post_path))
  | some u =>
      if postFormErrors d = [] then
        (postObjectsCreate db d.text u.id d.group (d.image.map (·.name)) now,
          .redirect .indexPage)
      else
        (db, .renderForm (postFormErrors d))

/-- views.py `post_edit` (login_required): anonymous users go to login;
a request user whose username differs from the URL's username is
redirected to the post page with no change and no error; the owner gets
404 if the post is absent, a bound valid form updates the row's text,
group and image in place (same id, author and pub_date) and redirects
to the post page, an invalid or GET form re-renders. -/
def post_edit (db : DB) (user : Option UserRec) (username : String)
    (post_id : Nat) (method_is_post : Bool) (d : PostFormData) :
    DB × ViewResult :=
  match user with
  | none => (db, .redirect (.login (post_edit_path username post_id)))
  | some u =>
      if u.username = username then
        match findPost db username post_id with
        | none => (db, .notFound)
        | some post =>
            if method_is_post then
              if postFormErrors d = [] then
                let post2 : PostRec :=
                  { post with
                      text := d.text
                      group := d.group
                      image := match d.image with
                        | some f => some f.name
                        | none => post.image }
                ({ db with posts :=
                    db.posts.map (fun q => if q.id = post.id then post2 else q) },
                  .redirect (.postPage username post_id))
              else
                (db, .renderForm (postFormErrors d))
            else
              (db, .renderForm [])
      else
        (db, .redirect (.postPage username post_id))

/-- views.py `add_comment` (login_required): anonymous users go to
login; 404 if the post is absent; a valid form creates the comment;
valid or not, the view then redirects to the post page (an invalid
comment form is never re-rendered). -/
def add_comment (db : DB) (user : Option UserRec) (username : String)
    (post_id : Nat) (text : String) (now : Nat) : DB × ViewResult :=
  match user with
  | none => (db, .redirect (.login (add_comment_path username post_id)))
  | some u =>
      match findPost db username post_id with
      | none => (db, .notFound)
      | some post =>
          if commentFormErrors text = [] then
            (commentObjectsCreate db text post.id u.id now,
              .redirect (.postPage username post_id))
          else
            (db, .redirect (.postPage username post_id))

/-- `Follow.objects.get(user=..., author=...)`: the single matching
row, or DoesNotExist / MultipleObjectsReturned. -/
inductive GetErr where
  | doesNotExist
  | multipleObjectsReturned
deriving Repr, DecidableEq

def followObjectsGet (db : DB) (uid aid : Nat) : Except GetErr FollowRec :=
  match db.follows.filter (fun f => f.user == uid && f.author == aid) with
  | [] => .error .doesNotExist
  | [f] => .ok f
  | _ :: _ :: _ => .error .multipleObjectsReturned

/-- `follow.delete()`: remove the row with that primary key. -/
def followDelete (db : DB) (f : FollowRec) : DB :=
  { db with follows := db.follows.filter (fun g => g.id ≠ f.id) }

/-- views.py `profile_following(request, username, follow)`: 404 if the
username is unknown; if the request user differs from the author,
following creates an edge when none exists and unfollowing deletes the
edge obtained by get(); in every non-404 case the view redirects to the
profile page. An unguarded get() on duplicate edges raises. -/
def profile_following (db : DB) (u : UserRec) (username : String)
    (follow : Bool) : Except GetErr (DB × ViewResult) :=
  match db.users.find? (fun a => a.username == username) with
  | none => .ok (db, .notFound)
  | some author =>
      if u = author then
        .ok (db, .redirect (.profilePage username))
      else
        if follow && !(user_is_follower db (some u) author) then
          .ok (followObjectsCreate db u.id author.id,
            .redirect (.profilePage username))
        else if !follow && user_is_follower db (some u) author then
          match followObjectsGet db u.id author.id with
          | .error e => .error e
          | .ok f => .ok (followDelete db f, .redirect (.profilePage username))
        else
          .ok (db, .redirect (.profilePage username))

/-- views.py `profile_follow` (login_required). -/
def profile_follow (db : DB) (user : Option UserRec) (username : String) :
    Except GetErr (DB × ViewResult) :=
  match user with
  | none => .ok (db, .redirect (.login (profile_follow_path username)))
  | some u => profile_following db u username true

/-- views.py `profile_unfollow` (login_required). -/
def profile_unfollow (db : DB) (user : Option UserRec) (username : String) :
    Except GetErr (DB × ViewResult) :=
  match user with
  | none => .ok (db, .redirect (.login (profile_unfollow_path username)))
  | some u => profile_following db u username false

/-! ### Deletion semantics declared by the models (on_delete) -/

/-- Deleting a `Group`: `Post.group` is declared `SET_NULL`, so the
group's posts survive with their group reference nulled. -/
def deleteGroup (db : DB) (gid : Nat) : DB :=
  { db with
      groups := db.groups.filter (fun g => g.id ≠ gid)
      posts := db.posts.map
        (fun p => if p.group = some gid then { p with group := none } else p) }

/-- Deleting a `Post`: `Comment.post` is declared `CASCADE`, so the
post's comments are deleted with it. -/
def deletePost (db : DB) (pid : Nat) : DB :=
  { db with
      posts := db.posts.filter (fun p => p.id ≠ pid)
      comments := db.comments.filter (fun c => c.post ≠ pid) }

/-- Deleting a user: `Post.author`, `Comment.author`, `Follow.user` and
`Follow.author` are all `CASCADE`, so the user's posts, comments and
follow edges are deleted, and so are the comments on the deleted
posts. -/
def deleteUser (db : DB) (uid : Nat) : DB :=
  let deadPosts := db.posts.filter (fun p => p.author = uid)
  { db with
      users := db.users.filter (fun u => u.id ≠ uid)
      posts := db.posts.filter (fun p => p.author ≠ uid)
      comments := db.comments.filter
        (fun c => c.author ≠ uid && !(deadPosts.any (fun p => p.id == c.post)))
      follows := db.follows.filter (fun f => f.user ≠ uid && f.author ≠ uid) }

/-- Referential integrity: every post's author exists, every comment's
post and author exist, every follow edge's endpoints exist, and every
non-null group reference exists. -/
def refIntact (db : DB) : Prop :=
  (∀ p ∈ db.posts, ∃ u ∈ db.users, u.id = p.author) ∧
  (∀ p ∈ db.posts, ∀ gid, p.group = some gid → ∃ g ∈ db.groups, g.id = gid) ∧
  (∀ c ∈ db.comments, ∃ p ∈ db.posts, p.id = c.post) ∧
  (∀ c ∈ db.comments, ∃ u ∈ db.users, u.id = c.author) ∧
  (∀ f ∈ db.follows, (∃ u ∈ db.users, u.id = f.user) ∧ ∃ u ∈ db.users, u.id = f.author)

instance (db : DB) : Decidable (refIntact db) := by
  unfold refIntact; infer_instance

/-- The number of Follow edges for a given (user, author) pair. -/
def countPair (db : DB) (uid aid : Nat) : Nat :=
  (db.follows.filter (fun f => f.user == uid && f.author == aid)).length

/-- The database after one toggle request (the response value
dropped; a raised error leaves the store untouched). -/
def followStep (db : DB) (u : UserRec) (username : String) (fl : Bool) : DB :=
  match profile_following db u username fl with
  | .ok (db2, _) => db2
  | .error _ => db

/-- n sequential follow requests. -/
def iterFollow (db : DB) (u : UserRec) (username : String) : Nat → DB
  | 0 => db
  | n + 1 => followStep (iterFollow db u username n) u username true

/-- n sequential unfollow requests. -/
def iterUnfollow (db : DB) (u : UserRec) (username : String) : Nat → DB
  | 0 => db
  | n + 1 => followStep (iterUnfollow db u username n) u username false

/-- States reachable from a start state by sequential successful
follow/unfollow requests. -/
inductive ReachableFollow (db0 : DB) : DB → Prop
  | refl : ReachableFollow db0 db0
  | step {db1 db2 : DB} (u : UserRec) (username : String) (fl : Bool)
      (r : ViewResult) :
      ReachableFollow db0 db1 →
      profile_following db1 u username fl = Except.ok (db2, r) →
      ReachableFollow db0 db2

/-! ### Concrete sample data (mirrors the fixtures of posts/tests.py) -/

def alice : UserRec := ⟨1, "alice"⟩
def bob : UserRec := ⟨2, "bob"⟩
def sampleGroup : GroupRec := ⟨1, "Test Group", "group_test", "a test group"⟩
def samplePost : PostRec := ⟨1, "first text", 1, 1, some 1, none⟩

def sampleDB : DB := ⟨[alice, bob], [sampleGroup], [samplePost], [], []⟩

/-- A post created later than `samplePost`, not yet in `sampleDB`. -/
def newPost : PostRec := ⟨2, "second text", 5, 1, some 1, none⟩

def sampleDB2 : DB := { sampleDB with posts := sampleDB.posts ++ [newPost] }

/-- Eleven posts by one author: a two-page home feed. -/
def dbEleven : DB :=
  ⟨[alice], [], (List.range 11).map (fun i => ⟨i + 1, "text", 0, 1, none, none⟩),
    [], []⟩

/-- A 201-character text: longer than the declared 200-character bound. -/
def longText : String := String.mk (List.replicate 201 'a')

/-! ### Supporting lemmas -/

lemma mem_orderPosts {q : PostRec} {l : List PostRec} :
    q ∈ orderPosts l ↔ q ∈ l :=
  List.mem_insertionSort postLE

lemma sorted_orderPosts (l : List PostRec) :
    List.Sorted postLE (orderPosts l) :=
  List.sorted_insertionSort postLE l

lemma le_foldr_max {x : Nat} {l : List Nat} (h : x ∈ l) :
    x ≤ l.foldr max 0 := by
  induction l with
  | nil => cases h
  | cons y ys ih =>
      rcases List.mem_cons.mp h with rfl | h
      · exact le_max_left _ _
      · exact le_trans (ih h) (le_max_right _ _)

lemma ne_freshId {x : Nat} {l : List Nat} (h : x ∈ l) : x ≠ freshId l := by
  have := le_foldr_max h
  unfold freshId
  omega

lemma mem_follows_id_ne_fresh {db : DB} {g : FollowRec} (h : g ∈ db.follows) :
    g.id ≠ freshFollowId db :=
  ne_freshId (List.mem_map_of_mem (·.id) h)

/-- `user_is_follower` is exactly "the pair count is positive". -/
lemma user_is_follower_iff_countPair (db : DB) (u : UserRec) (a : UserRec) :
    user_is_follower db (some u) a = true ↔ 0 < countPair db u.id a.id := by
  unfold user_is_follower countPair
  rw [List.any_eq_true]
  constructor
  · rintro ⟨f, hf, hpred⟩
    have : f ∈ db.follows.filter (fun f => f.user == u.id && f.author == a.id) :=
      List.mem_filter.mpr ⟨hf, hpred⟩
    exact List.length_pos.mpr (List.ne_nil_of_mem this)
  · intro hpos
    rcases List.exists_mem_of_length_pos hpos with ⟨f, hf⟩
    rcases List.mem_filter.mp hf with ⟨hmem, hpred⟩
    exact ⟨f, hmem, hpred⟩

lemma countPair_followObjectsCreate (db : DB) (uid aid x y : Nat) :
    countPair (followObjectsCreate db uid aid) x y =
      countPair db x y + (if uid = x ∧ aid = y then 1 else 0) := by
  unfold countPair followObjectsCreate
  simp only [List.filter_append, List.length_append]
  congr 1
  by_cases h : uid = x ∧ aid = y
  · rcases h with ⟨rfl, rfl⟩
    simp
  · rw [if_neg h]
    have hb : (uid == x && aid == y) = false := by
      by_cases h1 : uid = x
      · subst h1
        have h2 : aid ≠ y := fun h2 => h ⟨rfl, h2⟩
        simp [h2]
      · simp [h1]
    simp [List.filter_singleton, hb]

lemma countPair_followDelete_le (db : DB) (f : FollowRec) (x y : Nat) :
    countPair (followDelete db f) x y ≤ countPair db x y := by
  unfold countPair followDelete
  exact List.Sublist.length_le
    (List.Sublist.filter _ (List.filter_sublist db.follows))

lemma length_filter_ne_id {l : List FollowRec} {f : FollowRec}
    (hnodup : (l.map (·.id)).Nodup) (hf : f ∈ l) :
    (l.filter (fun g => g.id ≠ f.id)).length + 1 = l.length := by
  induction l with
  | nil => cases hf
  | cons g gs ih =>
      rw [List.map_cons, List.nodup_cons] at hnodup
      rcases List.mem_cons.mp hf with rfl | hf
      · have hfilter : List.filter (fun g => decide (g.id ≠ f.id)) (f :: gs) = gs := by
          rw [List.filter_cons, if_neg (by simp)]
          rw [List.filter_eq_self]
          intro x hx
          have : x.id ≠ f.id := fun he =>
            hnodup.1 (he ▸ List.mem_map_of_mem (·.id) hx)
          simpa using this
        rw [hfilter, List.length_cons]
      · have hgne : g.id ≠ f.id := fun he =>
          hnodup.1 (he ▸ List.mem_map_of_mem (·.id) hf)
        have hih := ih hnodup.2 hf
        rw [List.filter_cons, if_pos (by simpa using hgne), List.length_cons,
          List.length_cons]
        omega

/-- With no duplicate primary keys, deleting a row removes exactly one
element. -/
lemma length_followDelete {db : DB} {f : FollowRec}
    (hnodup : (db.follows.map (·.id)).Nodup) (hf : f ∈ db.follows) :
    (followDelete db f).follows.length + 1 = db.follows.length :=
  length_filter_ne_id hnodup hf

/-- If the pair filter returns the singleton [f], every matching edge is
f itself. -/
lemma eq_of_filter_pair_singleton {db : DB} {uid aid : Nat} {f g : FollowRec}
    (hs : db.follows.filter (fun h => h.user == uid && h.author == aid) = [f])
    (hg : g ∈ db.follows) (hpred : (g.user == uid && g.author == aid) = true) :
    g = f := by
  have : g ∈ db.follows.filter (fun h => h.user == uid && h.author == aid) :=
    List.mem_filter.mpr ⟨hg, hpred⟩
  rw [hs] at this
  simpa using this

lemma countPair_followDelete_eq_zero {db : DB} {uid aid : Nat} {f : FollowRec}
    (hs : db.follows.filter (fun h => h.user == uid && h.author == aid) = [f]) :
    countPair (followDelete db f) uid aid = 0 := by
  unfold countPair followDelete
  simp only [List.length_eq_zero, List.filter_filter]
  rw [List.filter_eq_nil_iff]
  intro g hg hpred
  simp only [Bool.and_eq_true, decide_eq_true_eq, ne_eq] at hpred
  exact hpred.2 (congrArg (·.id) (eq_of_filter_pair_singleton hs hg (by
    simp only [Bool.and_eq_true]
    exact hpred.1)))

lemma countPair_eq_zero_iff (db : DB) (uid aid : Nat) :
    countPair db uid aid = 0 ↔
      db.follows.filter (fun f => f.user == uid && f.author == aid) = [] := by
  unfold countPair
  exact List.length_eq_zero

lemma user_is_follower_eq_false_iff (db : DB) (u a : UserRec) :
    user_is_follower db (some u) a = false ↔ countPair db u.id a.id = 0 := by
  rw [← Bool.not_eq_true, user_is_follower_iff_countPair]
  omega

/-- Following with no existing edge creates one. -/
lemma profile_following_follow_create {db : DB} {u a : UserRec}
    {username : String}
    (hfind : db.users.find? (fun x => x.username == username) = some a)
    (hne : u ≠ a) (h0 : countPair db u.id a.id = 0) :
    profile_following db u username true =
      .ok (followObjectsCreate db u.id a.id,
        .redirect (.profilePage username)) := by
  have hfoll : user_is_follower db (some u) a = false :=
    (user_is_follower_eq_false_iff db u a).mpr h0
  simp only [profile_following, hfind]
  rw [if_neg hne]
  simp [hfoll]

/-- Following with an existing edge is a no-op. -/
lemma profile_following_follow_noop {db : DB} {u a : UserRec}
    {username : String}
    (hfind : db.users.find? (fun x => x.username == username) = some a)
    (hne : u ≠ a) (hpos : 0 < countPair db u.id a.id) :
    profile_following db u username true =
      .ok (db, .redirect (.profilePage username)) := by
  have hfoll : user_is_follower db (some u) a = true :=
    (user_is_follower_iff_countPair db u a).mpr hpos
  simp only [profile_following, hfind]
  rw [if_neg hne]
  simp [hfoll]

/-- Unfollowing when exactly one edge exists deletes it. -/
lemma profile_following_unfollow_delete {db : DB} {u a : UserRec}
    {username : String} {f : FollowRec}
    (hfind : db.users.find? (fun x => x.username == username) = some a)
    (hne : u ≠ a)
    (hs : db.follows.filter (fun g => g.user == u.id && g.author == a.id) = [f]) :
    profile_following db u username false =
      .ok (followDelete db f, .redirect (.profilePage username)) := by
  have hpos : 0 < countPair db u.id a.id := by
    unfold countPair
    rw [hs]
    simp
  have hfoll : user_is_follower db (some u) a = true :=
    (user_is_follower_iff_countPair db u a).mpr hpos
  have hget : followObjectsGet db u.id a.id = .ok f := by
    unfold followObjectsGet
    rw [hs]
  simp only [profile_following, hfind]
  rw [if_neg hne]
  simp [hfoll, hget]

/-- Unfollowing with no edge is a no-op. -/
lemma profile_following_unfollow_noop {db : DB} {u a : UserRec}
    {username : String}
    (hfind : db.users.find? (fun x => x.username == username) = some a)
    (hne : u ≠ a) (h0 : countPair db u.id a.id = 0) :
    profile_following db u username false =
      .ok (db, .redirect (.profilePage username)) := by
  have hfoll : user_is_follower db (some u) a = false :=
    (user_is_follower_eq_false_iff db u a).mpr h0
  simp only [profile_following, hfind]
  rw [if_neg hne]
  simp [hfoll]

/-- A self-follow or self-unfollow attempt is rejected silently. -/
lemma profile_following_self {db : DB} {u a : UserRec} {username : String}
    (hfind : db.users.find? (fun x => x.username == username) = some a)
    (heq : u = a) (fl : Bool) :
    profile_following db u username fl =
      .ok (db, .redirect (.profilePage username)) := by
  simp only [profile_following, hfind]
  rw [if_pos heq]

/-- Any successful toggle call leaves the state unchanged, inserts one
edge into a pair with no edge, or deletes one row. -/
lemma profile_following_ok_cases {db db2 : DB} {u : UserRec}
    {username : String} {fl : Bool} {r : ViewResult}
    (h : profile_following db u username fl = .ok (db2, r)) :
    db2 = db ∨
    (∃ a : UserRec, u ≠ a ∧ countPair db u.id a.id = 0 ∧
      db2 = followObjectsCreate db u.id a.id) ∨
    (∃ f : FollowRec, db2 = followDelete db f) := by
  cases hfind : db.users.find? (fun x => x.username == username) with
  | none =>
      simp only [profile_following, hfind, Except.ok.injEq, Prod.mk.injEq] at h
      exact Or.inl h.1.symm
  | some a =>
      simp only [profile_following, hfind] at h
      by_cases heq : u = a
      · rw [if_pos heq] at h
        simp only [Except.ok.injEq, Prod.mk.injEq] at h
        exact Or.inl h.1.symm
      · rw [if_neg heq] at h
        by_cases hc1 : (fl && !user_is_follower db (some u) a) = true
        · rw [if_pos hc1] at h
          simp only [Except.ok.injEq, Prod.mk.injEq] at h
          refine Or.inr (Or.inl ⟨a, heq, ?_, h.1.symm⟩)
          rcases Bool.and_eq_true_iff.mp hc1 with ⟨-, hn⟩
          refine (user_is_follower_eq_false_iff db u a).mp ?_
          rwa [Bool.not_eq_eq_eq_not, Bool.not_true] at hn
        · rw [if_neg hc1] at h
          by_cases hc2 : (!fl && user_is_follower db (some u) a) = true
          · rw [if_pos hc2] at h
            cases hget : followObjectsGet db u.id a.id with
            | error e =>
                rw [hget] at h
                cases h
            | ok f =>
                rw [hget] at h
                simp only [Except.ok.injEq, Prod.mk.injEq] at h
                exact Or.inr (Or.inr ⟨f, h.1.symm⟩)
          · rw [if_neg hc2] at h
            simp only [Except.ok.injEq, Prod.mk.injEq] at h
            exact Or.inl h.1.symm

lemma refIntact_deleteUser {db : DB} (h : refIntact db) (uid : Nat) :
    refIntact (deleteUser db uid) := by
  obtain ⟨hpa, hpg, hcp, hca, hfol⟩ := h
  refine ⟨?_, ?_, ?_, ?_, ?_⟩
  · intro p hp
    simp only [deleteUser, List.mem_filter, decide_eq_true_eq] at hp
    obtain ⟨hpmem, hpne⟩ := hp
    obtain ⟨w, hw, hwid⟩ := hpa p hpmem
    refine ⟨w, ?_, hwid⟩
    simp only [deleteUser, List.mem_filter, decide_eq_true_eq]
    exact ⟨hw, by rw [hwid]; exact hpne⟩
  · intro p hp gid hg
    simp only [deleteUser, List.mem_filter, decide_eq_true_eq] at hp
    exact hpg p hp.1 gid hg
  · intro c hc
    simp only [deleteUser, List.mem_filter, Bool.and_eq_true, decide_eq_true_eq,
      Bool.not_eq_true', List.any_eq_false, List.mem_filter] at hc
    obtain ⟨hcmem, hcne, hdead⟩ := hc
    obtain ⟨p, hpmem, hpid⟩ := hcp c hcmem
    by_cases hpu : p.author = uid
    · exact absurd (by simpa using hpid)
        (hdead p ⟨hpmem, by simpa using hpu⟩)
    · refine ⟨p, ?_, hpid⟩
      simp only [deleteUser, List.mem_filter, decide_eq_true_eq]
      exact ⟨hpmem, hpu⟩
  · intro c hc
    simp only [deleteUser, List.mem_filter, Bool.and_eq_true, decide_eq_true_eq,
      Bool.not_eq_true', List.any_eq_false, List.mem_filter] at hc
    obtain ⟨hcmem, hcne, -⟩ := hc
    obtain ⟨w, hw, hwid⟩ := hca c hcmem
    refine ⟨w, ?_, hwid⟩
    simp only [deleteUser, List.mem_filter, decide_eq_true_eq]
    exact ⟨hw, by rw [hwid]; exact hcne⟩
  · intro f hf
    simp only [deleteUser, List.mem_filter, Bool.and_eq_true,
      decide_eq_true_eq] at hf
    obtain ⟨hfmem, hfu, hfa⟩ := hf
    obtain ⟨⟨w1, hw1, hw1id⟩, ⟨w2, hw2, hw2id⟩⟩ := hfol f hfmem
    constructor
    · refine ⟨w1, ?_, hw1id⟩
      simp only [deleteUser, List.mem_filter, decide_eq_true_eq]
      exact ⟨hw1, by rw [hw1id]; exact hfu⟩
    · refine ⟨w2, ?_, hw2id⟩
      simp only [deleteUser, List.mem_filter, decide_eq_true_eq]
      exact ⟨hw2, by rw [hw2id]; exact hfa⟩

lemma refIntact_deletePost {db : DB} (h : refIntact db) (pid : Nat) :
    refIntact (deletePost db pid) := by
  obtain ⟨hpa, hpg, hcp, hca, hfol⟩ := h
  refine ⟨?_, ?_, ?_, ?_, ?_⟩
  · intro p hp
    simp only [deletePost, List.mem_filter, decide_eq_true_eq] at hp
    exact hpa p hp.1
  · intro p hp gid hg
    simp only [deletePost, List.mem_filter, decide_eq_true_eq] at hp
    exact hpg p hp.1 gid hg
  · intro c hc
    simp only [deletePost, List.mem_filter, decide_eq_true_eq] at hc
    obtain ⟨hcmem, hcne⟩ := hc
    obtain ⟨p, hpmem, hpid⟩ := hcp c hcmem
    refine ⟨p, ?_, hpid⟩
    simp only [deletePost, List.mem_filter, decide_eq_true_eq]
    exact ⟨hpmem, by rw [hpid]; exact hcne⟩
  · intro c hc
    simp only [deletePost, List.mem_filter, decide_eq_true_eq] at hc
    exact hca c hc.1
  · intro f hf
    exact hfol f hf

lemma refIntact_deleteGroup {db : DB} (h : refIntact db) (gid : Nat) :
    refIntact (deleteGroup db gid) := by
  obtain ⟨hpa, hpg, hcp, hca, hfol⟩ := h
  refine ⟨?_, ?_, ?_, ?_, ?_⟩
  · intro p hp
    simp only [deleteGroup, List.mem_map] at hp
    obtain ⟨p0, hp0, rfl⟩ := hp
    have ha : (if p0.group = some gid then { p0 with group := none }
        else p0).author = p0.author := by
      split <;> rfl
    rw [ha]
    exact hpa p0 hp0
  · intro p hp gid' hg
    simp only [deleteGroup, List.mem_map] at hp
    obtain ⟨p0, hp0, rfl⟩ := hp
    by_cases hcase : p0.group = some gid
    · rw [if_pos hcase] at hg
      simp at hg
    · rw [if_neg hcase] at hg
      obtain ⟨g, hgmem, hgid⟩ := hpg p0 hp0 gid' hg
      refine ⟨g, ?_, hgid⟩
      simp only [deleteGroup, List.mem_filter, decide_eq_true_eq]
      refine ⟨hgmem, fun he => hcase ?_⟩
      have : gid' = gid := by omega
      rw [← this]
      exact hg
  · intro c hc
    obtain ⟨p, hpmem, hpid⟩ := hcp c hc
    refine ⟨if p.group = some gid then { p with group := none } else p, ?_, ?_⟩
    · simp only [deleteGroup, List.mem_map]
      exact ⟨p, hpmem, rfl⟩
    · split <;> simpa using hpid
  · intro c hc
    exact hca c hc
  · intro f hf
    exact hfol f hf

lemma one_le_numPages (count per_page : Nat) : 1 ≤ numPages count per_page :=
  le_max_left 1 _

lemma get_page_num_pages (l : List PostRec) (per_page : Nat) (p : PageParam) :
    (get_page l per_page p).num_pages = numPages l.length per_page := rfl

lemma get_page_number_notAnInt (l : List PostRec) (per_page : Nat) :
    (get_page l per_page PageParam.notAnInt).number = 1 := rfl

lemma get_page_number_num (l : List PostRec) (per_page : Nat) (n : Int) :
    (get_page l per_page (PageParam.num n)).number =
      if n < 1 then numPages l.length per_page
      else if (numPages l.length per_page : Int) < n then
        numPages l.length per_page
      else n.toNat := rfl

lemma get_page_length_le (l : List PostRec) (per_page : Nat) (p : PageParam) :
    (get_page l per_page p).object_list.length ≤ per_page := by
  unfold get_page
  simp only [List.length_take]
  exact min_le_left _ _

lemma get_page_object_sublist (l : List PostRec) (per_page : Nat) (p : PageParam) :
    (get_page l per_page p).object_list.Sublist l := by
  unfold get_page
  exact (List.take_sublist _ _).trans (List.drop_sublist _ _)

lemma mem_of_mem_get_page {q : PostRec} {l : List PostRec} {per_page : Nat}
    {p : PageParam} (h : q ∈ (get_page l per_page p).object_list) : q ∈ l :=
  (get_page_object_sublist l per_page p).mem h

lemma sorted_get_page {l : List PostRec} (hl : List.Sorted postLE l)
    (per_page : Nat) (p : PageParam) :
    List.Sorted postLE (get_page l per_page p).object_list :=
  List.Pairwise.sublist (get_page_object_sublist l per_page p) hl

lemma get_page_number_bounds (l : List PostRec) (per_page : Nat) (p : PageParam) :
    1 ≤ (get_page l per_page p).number ∧
      (get_page l per_page p).number ≤ numPages l.length per_page := by
  cases p with
  | notAnInt =>
      rw [get_page_number_notAnInt]
      exact ⟨le_refl 1, one_le_numPages _ _⟩
  | num n =>
      rw [get_page_number_num]
      have h1 := one_le_numPages l.length per_page
      by_cases hlt : n < 1
      · rw [if_pos hlt]
        exact ⟨h1, le_refl _⟩
      · rw [if_neg hlt]
        by_cases hgt : (numPages l.length per_page : Int) < n
        · rw [if_pos hgt]
          exact ⟨h1, le_refl _⟩
        · rw [if_neg hgt]
          constructor <;> omega

/-! ### Claim theorems -/

/-- C3 counterexample: the claim says an out-of-range page number falls
back to the NEAREST valid page. With eleven posts the home feed has two
pages (1 and 2); for requested page number 0 the nearest valid page is
page 1, but `Paginator.get_page` maps every out-of-range number —
including numbers below 1 — to the LAST page, so the view returns page
2, not page 1. -/
theorem C3_counterexample :
    numPages (index_post_list dbEleven).length 10 = 2 ∧
    (get_page (index_post_list dbEleven) 10 (PageParam.num 0)).number = 2 ∧
    (get_page (index_post_list dbEleven) 10 (PageParam.num 0)).number ≠ 1 := by
  decide

/-- C3 (amended): for every base post list of the four feeds (all
posts, a group's posts, an author's posts, posts from followed authors)
and every requested page number, the feed builder returns a page of at
most 10 posts ordered newest-first by (pub_date, id) descending,
together with pagination metadata (page count, has-next, has-previous),
and never errors: a non-integer page number falls back to the FIRST
page, while an out-of-range page number (below 1 or above the page
count) falls back to the LAST page. -/
theorem C3_feed_pagination (db : DB) (gid aid uid : Nat) (l : List PostRec)
    (p : PageParam)
    (hl : l = index_post_list db ∨ l = group_post_list db gid ∨
          l = profile_post_list db aid ∨ l = follow_post_list db uid) :
    (get_page l 10 p).object_list.length ≤ 10 ∧
    List.Sorted postLE (get_page l 10 p).object_list ∧
    1 ≤ (get_page l 10 p).number ∧
    (get_page l 10 p).number ≤ (get_page l 10 p).num_pages ∧
    (get_page l 10 p).num_pages = numPages l.length 10 ∧
    ((get_page l 10 p).has_next = true ↔
      (get_page l 10 p).number < (get_page l 10 p).num_pages) ∧
    ((get_page l 10 p).has_previous = true ↔ 1 < (get_page l 10 p).number) ∧
    (p = PageParam.notAnInt → (get_page l 10 p).number = 1) ∧
    (∀ n : Int, p = PageParam.num n →
      (n < 1 ∨ (numPages l.length 10 : Int) < n) →
      (get_page l 10 p).number = numPages l.length 10) ∧
    (∀ n : Int, p = PageParam.num n → 1 ≤ n →
      n ≤ (numPages l.length 10 : Int) →
      ((get_page l 10 p).number : Int) = n) := by
  have hsorted : List.Sorted postLE l := by
    rcases hl with rfl | rfl | rfl | rfl <;> exact sorted_orderPosts _
  have hbounds := get_page_number_bounds l 10 p
  refine ⟨get_page_length_le l 10 p, sorted_get_page hsorted 10 p,
    hbounds.1, hbounds.2, rfl, by simp [PageObj.has_next],
    by simp [PageObj.has_previous], ?_, ?_, ?_⟩
  · rintro rfl
    rfl
  · rintro n rfl hout
    rw [get_page_number_num]
    rcases hout with h | h
    · rw [if_pos h]
    · rw [if_neg (by omega), if_pos h]
  · rintro n rfl h1 h2
    rw [get_page_number_num]
    rw [if_neg (by omega), if_neg (by omega)]
    omega

/-- C3 witness: the amended pagination theorem evaluated on the sample
database's home feed at page 1. -/
theorem C3_witness :
    (get_page (index_post_list sampleDB) 10 (PageParam.num 1)).object_list.length ≤ 10 ∧
    List.Sorted postLE
      (get_page (index_post_list sampleDB) 10 (PageParam.num 1)).object_list ∧
    ((get_page (index_post_list sampleDB) 10 (PageParam.num 1)).number : Int) = 1 := by
  have h := C3_feed_pagination sampleDB 0 0 0 (index_post_list sampleDB)
    (PageParam.num 1) (Or.inl rfl)
  exact ⟨h.1, h.2.1, h.2.2.2.2.2.2.2.2.2 1 rfl (by decide) (by decide)⟩

/-- C7: for every login-required endpoint (new post, post edit, add
comment, follow feed, follow and unfollow), an unauthenticated request
performs no action, creates no record (the database comes back
unchanged), and redirects to the login URL with a next parameter equal
to the originally requested path. -/
theorem C7_login_required_redirects :
    ∀ (db : DB) (d : PostFormData) (username : String) (post_id : Nat)
      (m : Bool) (text : String) (now : Nat) (p : PageParam),
    new_post db none d now = (db, .redirect (.login new_post_path)) ∧
    post_edit db none username post_id m d =
      (db, .redirect (.login (post_edit_path username post_id))) ∧
    add_comment db none username post_id text now =
      (db, .redirect (.login (add_comment_path username post_id))) ∧
    follow_index db none p = .redirect (.login follow_index_path) ∧
    profile_follow db none username =
      .ok (db, .redirect (.login (profile_follow_path username))) ∧
    profile_unfollow db none username =
      .ok (db, .redirect (.login (profile_unfollow_path username))) := by
  intro db d username post_id m text now p
  exact ⟨rfl, rfl, rfl, rfl, rfl, rfl⟩

/-- C8: an authenticated user whose username differs from the username
in the edit URL is redirected to the post page with no error message,
and the database — in particular the post's text, group, image, author
and timestamp — is left completely unchanged. -/
theorem C8_edit_foreign_post_denied (db : DB) (u : UserRec) (username : String)
    (post_id : Nat) (m : Bool) (d : PostFormData)
    (hne : u.username ≠ username) :
    post_edit db (some u) username post_id m d =
      (db, .redirect (.postPage username post_id)) := by
  simp only [post_edit]
  rw [if_neg hne]

/-- C8 witness: bob requesting an edit of alice's post is silently
redirected and nothing changes. -/
theorem C8_witness :
    post_edit sampleDB (some bob) "alice" 1 true ⟨"hack", none, none⟩ =
      (sampleDB, .redirect (.postPage "alice" 1)) :=
  C8_edit_foreign_post_denied sampleDB bob "alice" 1 true ⟨"hack", none, none⟩
    (by decide)

set_option maxRecDepth 4000 in
/-- C10: the 200-character bound on Post and Comment text is a
form-level check only. A 201-character text is rejected by form
validation, yet creating a Post or a Comment directly through the model
layer succeeds and stores the text unchanged, because TextField's
max_length is not enforced on save. -/
theorem C10_model_layer_ignores_max_length :
    ∀ (db : DB) (author pid now : Nat),
    200 < longText.length ∧
    textErrors longText = [FormError.textTooLong] ∧
    commentFormErrors longText = [FormError.textTooLong] ∧
    (postObjectsCreate db longText author none none now).posts =
      db.posts ++ [⟨freshPostId db, longText, now, author, none, none⟩] ∧
    (commentObjectsCreate db longText pid author now).comments =
      db.comments ++ [⟨freshCommentId db, longText, now, pid, author⟩] := by
  intro db author pid now
  have hlen : longText.length = 201 := by
    decide
  have ht : textErrors longText = [FormError.textTooLong] := by
    unfold textErrors
    rw [hlen]
    decide
  exact ⟨by omega, ht, ht, rfl, rfl⟩

/-- C6 counterexample: the claim says an invalid submission re-renders
the same form with field-level errors for the comment form as well. An
empty comment text is invalid, yet `add_comment` never re-renders: it
redirects to the post page (it does persist nothing). -/
theorem C6_counterexample :
    commentFormErrors "" ≠ [] ∧
    add_comment sampleDB (some alice) "alice" 1 "" 5 =
      (sampleDB, .redirect (.postPage "alice" 1)) ∧
    ∀ errors, add_comment sampleDB (some alice) "alice" 1 "" 5 ≠
      (sampleDB, .renderForm errors) := by
  refine ⟨by decide, by decide, ?_⟩
  intro errors h
  have : (.redirect (.postPage "alice" 1) : ViewResult) = .renderForm errors := by
    have := congrArg Prod.snd h
    simpa [show add_comment sampleDB (some alice) "alice" 1 "" 5 =
      (sampleDB, .redirect (.postPage "alice" 1)) from by decide] using this.symm
  cases this

/-- C6 (amended): an invalid post-form submission (empty text,
oversized text, or a non-image file as the post image) re-renders the
post form with its field-level errors and persists no record, and a
non-image file with otherwise valid text yields exactly one form error;
an invalid comment-form submission also persists no record, but the
comment view redirects to the post page instead of re-rendering the
form with errors. -/
theorem C6_invalid_form_no_persist :
    ∀ (db : DB) (u : UserRec) (d : PostFormData) (now : Nat)
      (username : String) (post_id : Nat) (text : String),
    (postFormErrors d ≠ [] →
      new_post db (some u) d now = (db, .renderForm (postFormErrors d))) ∧
    (∀ f : UploadedFile, d.image = some f → f.is_image = false →
      textErrors d.text = [] →
      postFormErrors d = [FormError.notAnImage] ∧
      new_post db (some u) d now = (db, .renderForm [FormError.notAnImage])) ∧
    (∀ post : PostRec, findPost db username post_id = some post →
      commentFormErrors text ≠ [] →
      add_comment db (some u) username post_id text now =
        (db, .redirect (.postPage username post_id))) := by
  intro db u d now username post_id text
  refine ⟨?_, ?_, ?_⟩
  · intro herr
    simp only [new_post]
    rw [if_neg herr]
  · intro f hf himg htext
    have herr : postFormErrors d = [FormError.notAnImage] := by
      unfold postFormErrors
      rw [htext, hf]
      simp [imageErrors, himg]
    refine ⟨herr, ?_⟩
    simp only [new_post]
    rw [herr]
    simp
  · intro post hpost herr
    simp only [add_comment, hpost]
    rw [if_neg herr]

/-- C6 witness: on the sample database, an oversized post text
re-renders the form and persists nothing; a text file as post image
yields exactly the one notAnImage error; an empty comment is not
persisted and redirects. -/
theorem C6_witness :
    new_post sampleDB (some alice) ⟨"", none, none⟩ 5 =
      (sampleDB, .renderForm [FormError.textEmpty]) ∧
    postFormErrors ⟨"ok text", none, some ⟨"not_image.txt", false⟩⟩ =
      [FormError.notAnImage] ∧
    new_post sampleDB (some alice) ⟨"ok text", none, some ⟨"not_image.txt", false⟩⟩ 5 =
      (sampleDB, .renderForm [FormError.notAnImage]) ∧
    add_comment sampleDB (some alice) "alice" 1 "" 5 =
      (sampleDB, .redirect (.postPage "alice" 1)) := by
  have h := C6_invalid_form_no_persist sampleDB alice ⟨"", none, none⟩ 5 "alice" 1 ""
  have h2 := C6_invalid_form_no_persist sampleDB alice
    ⟨"ok text", none, some ⟨"not_image.txt", false⟩⟩ 5 "alice" 1 ""
  refine ⟨?_, ?_, ?_, ?_⟩
  · have := h.1 (by decide)
    simpa [show postFormErrors ⟨"", none, none⟩ = [FormError.textEmpty] from by decide]
      using this
  · exact (h2.2.1 ⟨"not_image.txt", false⟩ rfl rfl (by decide)).1
  · exact (h2.2.1 ⟨"not_image.txt", false⟩ rfl rfl (by decide)).2
  · exact h.2.2 samplePost (by decide) (by decide)

/-- C1: the home-feed post list is cached under the fixed key for 20
seconds. On a miss the full post list is recomputed and stored; on a
hit the cached value is returned unchanged; a post created after the
entry was stored is absent from every page of the home feed while the
entry is unexpired, the entry is expired 20 seconds after it was
stored, and the group, profile and follow feeds (uncached) contain the
new post immediately. -/
theorem C1_home_feed_cache (db db2 : DB) (c : CacheState) (t0 t : Nat)
    (q : PostRec) (hmiss : cacheGet c t0 = none) (hq : q ∉ db.posts)
    (hdb2 : db2 = { db with posts := db.posts ++ [q] }) (ht : t < t0 + 20) :
    get_cached_index_page db c t0 =
      (index_post_list db, cacheSet (index_post_list db) t0 20) ∧
    (∀ (dbx : DB) (cx : CacheState) (tx : Nat) (v : List PostRec),
      cacheGet cx tx = some v → get_cached_index_page dbx cx tx = (v, cx)) ∧
    (∀ p : PageParam,
      q ∉ (index db2 (cacheSet (index_post_list db) t0 20) t p).1.object_list) ∧
    cacheGet (cacheSet (index_post_list db) t0 20) (t0 + 20) = none ∧
    (∀ gid : Nat, q.group = some gid → q ∈ group_post_list db2 gid) ∧
    q ∈ profile_post_list db2 q.author ∧
    (∀ uid : Nat, (∃ f ∈ db2.follows, f.user = uid ∧ f.author = q.author) →
      q ∈ follow_post_list db2 uid) := by
  have hqdb2 : q ∈ db2.posts := by
    rw [hdb2]
    simp
  refine ⟨?_, ?_, ?_, ?_, ?_, ?_, ?_⟩
  · simp only [get_cached_index_page, hmiss]
  · intro dbx cx tx v hv
    simp only [get_cached_index_page, hv]
  · intro p hmem
    have hc : cacheGet (cacheSet (index_post_list db) t0 20) t =
        some (index_post_list db) := by
      simp [cacheGet, cacheSet, ht]
    simp only [index, get_cached_index_page, hc] at hmem
    have : q ∈ index_post_list db := mem_of_mem_get_page hmem
    rw [index_post_list, mem_orderPosts] at this
    exact hq this
  · simp [cacheGet, cacheSet]
  · intro gid hg
    rw [group_post_list, mem_orderPosts]
    refine List.mem_filter.mpr ⟨hqdb2, ?_⟩
    rw [hg]
    simp
  · rw [profile_post_list, mem_orderPosts]
    refine List.mem_filter.mpr ⟨hqdb2, ?_⟩
    simp
  · rintro uid ⟨f, hf, h1, h2⟩
    rw [follow_post_list, mem_orderPosts]
    refine List.mem_filter.mpr ⟨hqdb2, ?_⟩
    rw [List.any_eq_true]
    exact ⟨f, hf, by simp [h1, h2]⟩

/-- C1 witness: on the sample database a miss at time 0 stores the
feed; at time 5 the newly created post is invisible on the cached home
feed but visible on its group's and author's feeds; the entry is
expired at time 20. -/
theorem C1_witness :
    get_cached_index_page sampleDB ⟨none⟩ 0 =
      (index_post_list sampleDB, cacheSet (index_post_list sampleDB) 0 20) ∧
    newPost ∉
      (index sampleDB2 (cacheSet (index_post_list sampleDB) 0 20) 5
        (PageParam.num 1)).1.object_list ∧
    cacheGet (cacheSet (index_post_list sampleDB) 0 20) 20 = none ∧
    newPost ∈ group_post_list sampleDB2 1 ∧
    newPost ∈ profile_post_list sampleDB2 1 := by
  have h := C1_home_feed_cache sampleDB sampleDB2 ⟨none⟩ 0 5 newPost rfl
    (by decide) rfl (by decide)
  exact ⟨h.1, h.2.2.1 (PageParam.num 1), h.2.2.2.1, h.2.2.2.2.1 1 rfl,
    h.2.2.2.2.2.1⟩

/-- C2: follow(user, author) creates an edge iff user ≠ author and no
edge exists, and otherwise changes nothing; unfollow(user, author)
deletes exactly one matching edge when one exists and otherwise changes
nothing; a self-follow attempt is rejected silently with no edge
created and no error, and every branch still redirects to the profile
page. (Stated for stores with distinct primary keys, as produced by
auto-increment.) -/
theorem C2_follow_toggle (db : DB) (u a : UserRec) (username : String)
    (hfind : db.users.find? (fun x => x.username == username) = some a)
    (hnodup : (db.follows.map (·.id)).Nodup) :
    (u ≠ a → countPair db u.id a.id = 0 →
      profile_following db u username true =
        .ok (followObjectsCreate db u.id a.id,
          .redirect (.profilePage username)) ∧
      countPair (followObjectsCreate db u.id a.id) u.id a.id = 1) ∧
    (u ≠ a → 0 < countPair db u.id a.id →
      profile_following db u username true =
        .ok (db, .redirect (.profilePage username))) ∧
    (u ≠ a → ∀ f : FollowRec,
      db.follows.filter (fun g => g.user == u.id && g.author == a.id) = [f] →
      profile_following db u username false =
        .ok (followDelete db f, .redirect (.profilePage username)) ∧
      countPair (followDelete db f) u.id a.id = 0 ∧
      (followDelete db f).follows.length + 1 = db.follows.length) ∧
    (u ≠ a → countPair db u.id a.id = 0 →
      profile_following db u username false =
        .ok (db, .redirect (.profilePage username))) ∧
    (u = a →
      profile_following db u username true =
        .ok (db, .redirect (.profilePage username)) ∧
      profile_following db u username false =
        .ok (db, .redirect (.profilePage username))) := by
  refine ⟨?_, ?_, ?_, ?_, ?_⟩
  · intro hne h0
    refine ⟨profile_following_follow_create hfind hne h0, ?_⟩
    rw [countPair_followObjectsCreate]
    rw [h0, if_pos ⟨rfl, rfl⟩]
  · intro hne hpos
    exact profile_following_follow_noop hfind hne hpos
  · intro hne f hs
    have hf : f ∈ db.follows := by
      have : f ∈ db.follows.filter
          (fun g => g.user == u.id && g.author == a.id) := by
        rw [hs]
        exact List.mem_singleton.mpr rfl
      exact List.mem_of_mem_filter this
    exact ⟨profile_following_unfollow_delete hfind hne hs,
      countPair_followDelete_eq_zero hs, length_followDelete hnodup hf⟩
  · intro hne h0
    exact profile_following_unfollow_noop hfind hne h0
  · intro heq
    exact ⟨profile_following_self hfind heq true,
      profile_following_self hfind heq false⟩

/-- C2 witness: alice following bob on the sample database creates the
single edge; alice self-following changes nothing and still redirects;
unfollowing with no edge changes nothing. -/
theorem C2_witness :
    (profile_following sampleDB alice "bob" true =
      .ok (followObjectsCreate sampleDB 1 2, .redirect (.profilePage "bob")) ∧
     countPair (followObjectsCreate sampleDB 1 2) 1 2 = 1) ∧
    profile_following sampleDB alice "alice" true =
      .ok (sampleDB, .redirect (.profilePage "alice")) ∧
    profile_following sampleDB alice "bob" false =
      .ok (sampleDB, .redirect (.profilePage "bob")) := by
  have h1 := C2_follow_toggle sampleDB alice bob "bob" (by decide) (by decide)
  have h2 := C2_follow_toggle sampleDB alice alice "alice" (by decide) (by decide)
  exact ⟨h1.1 (by decide) (by decide), (h2.2.2.2.2 rfl).1,
    h1.2.2.2.1 (by decide) (by decide)⟩

/-- C4: starting from a state with no (user, author) edge, follow then
unfollow restores exactly the starting state (so no edge remains for
the pair); follow is idempotent — any n ≥ 1 sequential follow requests
leave the state after a single follow, with exactly one edge for the
pair — and repeated unfollow requests likewise leave none. -/
theorem C4_follow_unfollow_algebra (db : DB) (u a : UserRec)
    (username : String)
    (hfind : db.users.find? (fun x => x.username == username) = some a)
    (hne : u ≠ a) (h0 : countPair db u.id a.id = 0) :
    profile_following db u username true =
      .ok (followObjectsCreate db u.id a.id,
        .redirect (.profilePage username)) ∧
    profile_following (followObjectsCreate db u.id a.id) u username false =
      .ok (db, .redirect (.profilePage username)) ∧
    (∀ n : Nat, 1 ≤ n →
      iterFollow db u username n = followObjectsCreate db u.id a.id ∧
      countPair (iterFollow db u username n) u.id a.id = 1) ∧
    (∀ n : Nat, iterUnfollow db u username n = db ∧
      countPair (iterUnfollow db u username n) u.id a.id = 0) := by
  have hstep1 := profile_following_follow_create hfind hne h0
  have hcount1 : countPair (followObjectsCreate db u.id a.id) u.id a.id = 1 := by
    rw [countPair_followObjectsCreate, h0, if_pos ⟨rfl, rfl⟩]
  have hsingle : (followObjectsCreate db u.id a.id).follows.filter
      (fun g => g.user == u.id && g.author == a.id) =
      [⟨freshFollowId db, u.id, a.id⟩] := by
    show (db.follows ++ [(⟨freshFollowId db, u.id, a.id⟩ : FollowRec)]).filter _ = _
    rw [List.filter_append, (countPair_eq_zero_iff db u.id a.id).mp h0]
    simp
  have hdel : followDelete (followObjectsCreate db u.id a.id)
      ⟨freshFollowId db, u.id, a.id⟩ = db := by
    have hv : (followObjectsCreate db u.id a.id).follows.filter
        (fun g => g.id ≠ (⟨freshFollowId db, u.id, a.id⟩ : FollowRec).id) =
        db.follows := by
      show (db.follows ++ [(⟨freshFollowId db, u.id, a.id⟩ : FollowRec)]).filter _ = _
      rw [List.filter_append]
      have h1 : db.follows.filter
          (fun g => decide (g.id ≠ freshFollowId db)) = db.follows :=
        List.filter_eq_self.mpr
          (fun g hg => by simpa using mem_follows_id_ne_fresh hg)
      have h2 : [(⟨freshFollowId db, u.id, a.id⟩ : FollowRec)].filter
          (fun g => decide (g.id ≠ freshFollowId db)) = [] := by
        simp
      rw [h1, h2, List.append_nil]
    unfold followDelete
    rw [hv]
    rfl
  have hstep2 : profile_following (followObjectsCreate db u.id a.id) u
      username false = .ok (db, .redirect (.profilePage username)) := by
    have := profile_following_unfollow_delete
      (show (followObjectsCreate db u.id a.id).users.find?
        (fun x => x.username == username) = some a from hfind) hne hsingle
    rwa [hdel] at this
  refine ⟨hstep1, hstep2, ?_, ?_⟩
  · intro n hn
    induction n with
    | zero => omega
    | succ m ih =>
        rcases Nat.eq_zero_or_pos m with rfl | hm
        · constructor
          · show followStep (iterFollow db u username 0) u username true = _
            simp [iterFollow, followStep, hstep1]
          · show countPair (followStep (iterFollow db u username 0) u
              username true) u.id a.id = 1
            simp only [iterFollow, followStep, hstep1]
            exact hcount1
        · have heq := (ih hm).1
          have hnoop : profile_following (followObjectsCreate db u.id a.id) u
              username true = .ok (followObjectsCreate db u.id a.id,
                .redirect (.profilePage username)) :=
            profile_following_follow_noop
              (show (followObjectsCreate db u.id a.id).users.find?
                (fun x => x.username == username) = some a from hfind) hne
              (by rw [hcount1]; exact Nat.one_pos)
          constructor
          · show followStep (iterFollow db u username m) u username true = _
            rw [heq]
            simp [followStep, hnoop]
          · show countPair (followStep (iterFollow db u username m) u
                username true) u.id a.id = 1
            rw [heq]
            simp only [followStep, hnoop]
            exact hcount1
  · intro n
    induction n with
    | zero => exact ⟨rfl, h0⟩
    | succ m ih =>
        have hnoop := profile_following_unfollow_noop hfind hne h0
        constructor
        · show followStep (iterUnfollow db u username m) u username false = _
          rw [ih.1]
          simp [followStep, hnoop]
        · show countPair (followStep (iterUnfollow db u username m) u
              username false) u.id a.id = 0
          rw [ih.1]
          simp only [followStep, hnoop]
          exact h0

/-- C4 witness: on the sample database, alice follows bob then
unfollows, returning exactly the start state; three sequential follows
equal one; two unfollows leave the empty edge set. -/
theorem C4_witness :
    profile_following sampleDB alice "bob" true =
      .ok (followObjectsCreate sampleDB 1 2, .redirect (.profilePage "bob")) ∧
    profile_following (followObjectsCreate sampleDB 1 2) alice "bob" false =
      .ok (sampleDB, .redirect (.profilePage "bob")) ∧
    iterFollow sampleDB alice "bob" 3 = followObjectsCreate sampleDB 1 2 ∧
    countPair (iterFollow sampleDB alice "bob" 3) 1 2 = 1 ∧
    iterUnfollow sampleDB alice "bob" 2 = sampleDB := by
  have h := C4_follow_unfollow_algebra sampleDB alice bob "bob" (by decide)
    (by decide) (by decide)
  exact ⟨h.1, h.2.1, (h.2.2.1 3 (by omega)).1, (h.2.2.1 3 (by omega)).2,
    (h.2.2.2 2).1⟩

/-- C5: in every state reachable by sequential follow/unfollow requests
from an empty Follow table there is at most one edge per (user, author)
pair — upheld only by the toggle's existence check — while the Follow
storage itself accepts duplicates: two raw row inserts for the same
pair always add two edges. -/
theorem C5_follow_uniqueness (db0 db : DB) (h0 : db0.follows = [])
    (hr : ReachableFollow db0 db) :
    (∀ uid aid : Nat, countPair db uid aid ≤ 1) ∧
    (∀ (dbx : DB) (uid aid : Nat),
      countPair (followObjectsCreate (followObjectsCreate dbx uid aid) uid aid)
        uid aid = countPair dbx uid aid + 2) := by
  constructor
  · induction hr with
    | refl =>
        intro uid aid
        unfold countPair
        rw [h0]
        simp
    | step u username fl r hr1 hstep ih =>
        intro uid aid
        rcases profile_following_ok_cases hstep with
          hsame | ⟨a, hne, hc, hcreate⟩ | ⟨f, hdel⟩
        · rw [hsame]
          exact ih uid aid
        · rw [hcreate, countPair_followObjectsCreate]
          by_cases hp : u.id = uid ∧ a.id = aid
          · rw [if_pos hp]
            rw [hp.1, hp.2] at hc
            omega
          · rw [if_neg hp]
            have := ih uid aid
            omega
        · rw [hdel]
          exact le_trans (countPair_followDelete_le _ f uid aid) (ih uid aid)
  · intro dbx uid aid
    rw [countPair_followObjectsCreate, countPair_followObjectsCreate,
      if_pos (show uid = uid ∧ aid = aid from ⟨rfl, rfl⟩)]

/-- C5 witness: the sample database (empty Follow table) is reachable
from itself; it has at most one edge per pair, and a double raw insert
for (alice, bob) adds exactly two edges. -/
theorem C5_witness :
    countPair sampleDB 1 2 ≤ 1 ∧
    countPair (followObjectsCreate (followObjectsCreate sampleDB 1 2) 1 2) 1 2 =
      countPair sampleDB 1 2 + 2 := by
  have h := C5_follow_uniqueness sampleDB sampleDB rfl ReachableFollow.refl
  exact ⟨h.1 1 2, h.2 sampleDB 1 2⟩

/-- C9: the deletion semantics declared on the models preserve
referential integrity (every post keeps an existing author and every
comment an existing post and author): deleting a user deletes all their
posts, their comments (and the comments on the deleted posts, by the
cascade through Post), and their follow edges; deleting a post deletes
all its comments; deleting a group deletes no post but nulls the group
reference of the group's posts. -/
theorem C9_deletion_semantics (db : DB) (uid pid gid : Nat)
    (h : refIntact db) :
    refIntact (deleteUser db uid) ∧
    refIntact (deletePost db pid) ∧
    refIntact (deleteGroup db gid) ∧
    (∀ p ∈ (deleteUser db uid).posts, p.author ≠ uid) ∧
    (∀ c ∈ (deleteUser db uid).comments, c.author ≠ uid) ∧
    (∀ f ∈ (deleteUser db uid).follows, f.user ≠ uid ∧ f.author ≠ uid) ∧
    (∀ p ∈ (deletePost db pid).posts, p.id ≠ pid) ∧
    (∀ c ∈ (deletePost db pid).comments, c.post ≠ pid) ∧
    (deleteGroup db gid).posts.length = db.posts.length ∧
    (∀ p ∈ db.posts,
      (if p.group = some gid then { p with group := none } else p) ∈
        (deleteGroup db gid).posts) := by
  refine ⟨refIntact_deleteUser h uid, refIntact_deletePost h pid,
    refIntact_deleteGroup h gid, ?_, ?_, ?_, ?_, ?_, ?_, ?_⟩
  · intro p hp
    simp only [deleteUser, List.mem_filter, decide_eq_true_eq] at hp
    exact hp.2
  · intro c hc
    simp only [deleteUser, List.mem_filter, Bool.and_eq_true,
      decide_eq_true_eq] at hc
    exact hc.2.1
  · intro f hf
    simp only [deleteUser, List.mem_filter, Bool.and_eq_true,
      decide_eq_true_eq] at hf
    exact hf.2
  · intro p hp
    simp only [deletePost, List.mem_filter, decide_eq_true_eq] at hp
    exact hp.2
  · intro c hc
    simp only [deletePost, List.mem_filter, decide_eq_true_eq] at hc
    exact hc.2
  · simp only [deleteGroup, List.length_map]
  · intro p hp
    simp only [deleteGroup, List.mem_map]
    exact ⟨p, hp, rfl⟩

/-- C9 witness: the deletion semantics evaluated on the sample
database for user 1, post 1 and group 1. -/
theorem C9_witness :
    refIntact (deleteUser sampleDB 1) ∧
    refIntact (deleteGroup sampleDB 1) ∧
    (∀ p ∈ (deleteUser sampleDB 1).posts, p.author ≠ 1) ∧
    (∀ c ∈ (deletePost sampleDB 1).comments, c.post ≠ 1) ∧
    (deleteGroup sampleDB 1).posts.length = sampleDB.posts.length := by
  have h := C9_deletion_semantics sampleDB 1 1 1 (by decide)
  exact ⟨h.1, h.2.2.1, h.2.2.2.1, h.2.2.2.2.2.2.2.1, h.2.2.2.2.2.2.2.2.1⟩

end Yatube
